import Mathlib

/-!
Shallow embedding of the CEIS400 equipment-management system
(src/database.py and src/equipment_management.py).

The SQLite store is modelled as three lists of rows (employees, equipment,
checkouts).  The `id` columns are `INTEGER PRIMARY KEY`, so a `SELECT ...
WHERE id = ?` followed by `fetchone()` is modelled as `List.find?` on the id,
and an `UPDATE ... WHERE id = ?` as a map over the rows with that id.
Skill strings are compared after Python's `s.split(", ")`, which is modelled
character-exactly by `splitComma` below (in particular, splitting the empty
string yields the one-element list containing the empty string, exactly as in
Python).  The CheckoutEvent `id` (autoincrement) and `timestamp` columns are
represented by the row's position in the append-only `checkouts` list; no
claim depends on their concrete values.
-/

namespace EMS

/-- Row of the `employees` table: `id INTEGER PRIMARY KEY, name TEXT,
skill_set TEXT` (the skill set is stored as a single comma-space-delimited
string, as in the source). -/
structure Employee where
  id : Int
  name : String
  skill_set : String
deriving DecidableEq, Repr

/-- Row of the `equipment` table: `id INTEGER PRIMARY KEY, name TEXT,
required_skills TEXT, status TEXT DEFAULT 'Available'`. -/
structure EquipmentItem where
  id : Int
  name : String
  required_skills : String
  status : String
deriving DecidableEq, Repr

/-- Row of the `checkouts` table (autoincrement id and timestamp are encoded
by list position): `employee_id INTEGER, equipment_id INTEGER`. -/
structure CheckoutEvent where
  employee_id : Int
  equipment_id : Int
deriving DecidableEq, Repr

/-- The persistent state: the three tables created by
`Database.create_tables`. -/
structure Store where
  employees : List Employee
  equipment : List EquipmentItem
  checkouts : List CheckoutEvent
deriving DecidableEq, Repr

/-- Helper for `splitComma`: walks the character list, cutting at each
non-overlapping occurrence of the two-character separator `", "`, exactly as
Python's `str.split(", ")` does. `acc` holds the current field reversed. -/
def splitAux (acc : List Char) : List Char → List (List Char)
  | [] => [acc.reverse]
  | ',' :: ' ' :: rest => acc.reverse :: splitAux [] rest
  | c :: rest => splitAux (c :: acc) rest

/-- Python's `s.split(", ")`.  Note `splitComma "" = [""]`: Python's split on
an explicit separator never returns an empty list. -/
def splitComma (s : String) : List String :=
  (splitAux [] s.data).map (fun cs => String.mk cs)

/-- Outcome of `Database.check_out_equipment`.  Each constructor is one of
the function's `return` statements, with the data interpolated into the
returned message kept as payload. -/
inductive CheckOutResult where
  | employeeNotFound
  | equipmentNotFound
  | notAuthorized (employeeName : String) (requiredSkills : List String)
      (equipmentName : String)
  | alreadyCheckedOut
  | success (employeeName equipmentName : String)
deriving DecidableEq, Repr

/-- Whether a checkout outcome is the success message. -/
def CheckOutResult.isSuccess : CheckOutResult → Bool
  | .success _ _ => true
  | _ => false

/-- Outcome of `Database.return_equipment`. -/
inductive ReturnResult where
  | equipmentNotFound
  | success
  | notCheckedOut
deriving DecidableEq, Repr

/-- Whether a return outcome is the success message. -/
def ReturnResult.isSuccess : ReturnResult → Bool
  | .success => true
  | _ => false

/-- Outcome of `Database.add_employee` / `add_equipment`: either the row is
inserted, or the `sqlite3.IntegrityError` on a duplicate primary key is
caught and reported ("already exists. Skipping entry."). -/
inductive AddResult where
  | ok
  | duplicateKey
deriving DecidableEq, Repr

/-- The `UPDATE equipment SET status = st WHERE id = q` statement. -/
def updateStatus (l : List EquipmentItem) (q : Int) (st : String) :
    List EquipmentItem :=
  l.map (fun r => if r.id == q then { r with status := st } else r)

/-- The first row of `equipment` with the given id, projected to its status
(`SELECT status FROM equipment WHERE id = ?` + `fetchone`). -/
def statusOf (s : Store) (q : Int) : Option String :=
  (s.equipment.find? (fun r => r.id == q)).map (fun r => r.status)

/-- `Database.add_employee` (src/database.py:31-38): INSERT, with the
duplicate-primary-key IntegrityError caught and reported; on a duplicate the
transaction commits with no change. -/
def add_employee (s : Store) (employee_id : Int) (name skill_set : String) :
    Store × AddResult :=
  if s.employees.any (fun r => r.id == employee_id) then
    (s, .duplicateKey)
  else
    ({ s with employees := s.employees ++ [⟨employee_id, name, skill_set⟩] },
     .ok)

/-- `Database.add_equipment` (src/database.py:40-47): as `add_employee`; the
status column takes its SQL default 'Available'. -/
def add_equipment (s : Store) (equipment_id : Int) (name required_skills : String) :
    Store × AddResult :=
  if s.equipment.any (fun r => r.id == equipment_id) then
    (s, .duplicateKey)
  else
    ({ s with equipment :=
        s.equipment ++ [⟨equipment_id, name, required_skills, "Available"⟩] },
     .ok)

/-- `Database.check_out_equipment` (src/database.py:87-119): look up the
employee, look up the equipment, test the skill intersection
(`any(skill in employee_skills for skill in required_skills)`), test the
status, then INSERT a checkout row and UPDATE the status inside the one
`with self.conn` transaction. -/
def check_out_equipment (s : Store) (employee_id equipment_id : Int) :
    Store × CheckOutResult :=
  match s.employees.find? (fun r => r.id == employee_id) with
  | none => (s, .employeeNotFound)
  | some emp =>
    let employee_skills := splitComma emp.skill_set
    match s.equipment.find? (fun r => r.id == equipment_id) with
    | none => (s, .equipmentNotFound)
    | some eqp =>
      let required_skills := splitComma eqp.required_skills
      if !(required_skills.any (fun skill => employee_skills.contains skill)) then
        (s, .notAuthorized emp.name required_skills eqp.name)
      else if eqp.status == "Checked Out" then
        (s, .alreadyCheckedOut)
      else
        ({ s with
            checkouts := s.checkouts ++ [⟨employee_id, equipment_id⟩],
            equipment := updateStatus s.equipment equipment_id "Checked Out" },
         .success emp.name eqp.name)

/-- `Database.return_equipment` (src/database.py:121-138): look up the
status; if it is "Checked Out", UPDATE it to 'Available', else report that
the equipment was not checked out. -/
def return_equipment (s : Store) (equipment_id : Int) :
    Store × ReturnResult :=
  match s.equipment.find? (fun r => r.id == equipment_id) with
  | none => (s, .equipmentNotFound)
  | some eqp =>
    if eqp.status == "Checked Out" then
      ({ s with equipment := updateStatus s.equipment equipment_id "Available" },
       .success)
    else
      (s, .notCheckedOut)

/-! Helper lemmas about the store operations: one equation or frame lemma
per branch of `check_out_equipment` / `return_equipment`. -/

/-- An `UPDATE equipment SET status = st WHERE id = q` commutes with a lookup
`WHERE id = q'`: the found row is the same row, with the update applied when
its id is `q`. -/
theorem find?_updateStatus (l : List EquipmentItem) (q q' : Int) (st : String) :
    (updateStatus l q st).find? (fun r => r.id == q') =
      (l.find? (fun r => r.id == q')).map
        (fun r => if r.id == q then { r with status := st } else r) := by
  have hp : ((fun r : EquipmentItem => r.id == q') ∘
      (fun r => if r.id == q then { r with status := st } else r)) =
      (fun r : EquipmentItem => r.id == q') := by
    funext r
    by_cases h : r.id = q <;> simp [Function.comp_apply, h]
  rw [updateStatus, List.find?_map, hp]

theorem check_out_fail_frame (s : Store) (e q : Int)
    (h : (check_out_equipment s e q).2.isSuccess = false) :
    (check_out_equipment s e q).1 = s := by
  unfold check_out_equipment at h ⊢
  cases hemp : s.employees.find? (fun r => r.id == e) with
  | none => rfl
  | some emp =>
    cases heqp : s.equipment.find? (fun r => r.id == q) with
    | none => simp only [hemp, heqp]
    | some eqp =>
      simp only [hemp, heqp] at h ⊢
      cases hauth : ((splitComma eqp.required_skills).any
          (fun skill => (splitComma emp.skill_set).contains skill)) with
      | false => simp
      | true =>
        rw [hauth] at h
        cases hst : (eqp.status == "Checked Out") with
        | true => simp [hst]
        | false =>
          rw [hst] at h
          simp [CheckOutResult.isSuccess] at h

theorem check_out_success_eq (s : Store) (e q : Int) (emp : Employee)
    (eqp : EquipmentItem)
    (hemp : s.employees.find? (fun r => r.id == e) = some emp)
    (heqp : s.equipment.find? (fun r => r.id == q) = some eqp)
    (hauth : ((splitComma eqp.required_skills).any
        (fun skill => (splitComma emp.skill_set).contains skill)) = true)
    (hst : eqp.status ≠ "Checked Out") :
    check_out_equipment s e q =
      ({ s with
          checkouts := s.checkouts ++ [⟨e, q⟩],
          equipment := updateStatus s.equipment q "Checked Out" },
       .success emp.name eqp.name) := by
  have hst' : (eqp.status == "Checked Out") = false := by
    simpa using hst
  unfold check_out_equipment
  rw [hemp, heqp]
  dsimp only
  rw [hauth, hst']
  simp

theorem return_fail_frame (s : Store) (q : Int)
    (h : (return_equipment s q).2.isSuccess = false) :
    (return_equipment s q).1 = s := by
  unfold return_equipment at h ⊢
  cases heqp : s.equipment.find? (fun r => r.id == q) with
  | none => rfl
  | some eqp =>
    simp only [heqp] at h ⊢
    cases hst : (eqp.status == "Checked Out") with
    | true =>
      rw [hst] at h
      simp [ReturnResult.isSuccess] at h
    | false => simp

theorem return_success_eq (s : Store) (q : Int) (eqp : EquipmentItem)
    (heqp : s.equipment.find? (fun r => r.id == q) = some eqp)
    (hst : eqp.status = "Checked Out") :
    return_equipment s q =
      ({ s with equipment := updateStatus s.equipment q "Available" },
       .success) := by
  unfold return_equipment
  rw [heqp]
  dsimp only
  rw [if_pos (by simp [hst])]

theorem return_notCheckedOut_eq (s : Store) (q : Int) (eqp : EquipmentItem)
    (heqp : s.equipment.find? (fun r => r.id == q) = some eqp)
    (hst : eqp.status ≠ "Checked Out") :
    return_equipment s q = (s, .notCheckedOut) := by
  unfold return_equipment
  rw [heqp]
  dsimp only
  rw [if_neg (by simp [hst])]

theorem check_out_alreadyOut_eq (s : Store) (e q : Int) (emp : Employee)
    (eqp : EquipmentItem)
    (hemp : s.employees.find? (fun r => r.id == e) = some emp)
    (heqp : s.equipment.find? (fun r => r.id == q) = some eqp)
    (hauth : ((splitComma eqp.required_skills).any
        (fun skill => (splitComma emp.skill_set).contains skill)) = true)
    (hst : eqp.status = "Checked Out") :
    check_out_equipment s e q = (s, .alreadyCheckedOut) := by
  unfold check_out_equipment
  rw [hemp, heqp]
  dsimp only
  rw [hauth]
  rw [if_neg (by simp), if_pos (by simp [hst])]

theorem check_out_notAuthorized_eq (s : Store) (e q : Int) (emp : Employee)
    (eqp : EquipmentItem)
    (hemp : s.employees.find? (fun r => r.id == e) = some emp)
    (heqp : s.equipment.find? (fun r => r.id == q) = some eqp)
    (hauth : ((splitComma eqp.required_skills).any
        (fun skill => (splitComma emp.skill_set).contains skill)) = false) :
    check_out_equipment s e q =
      (s, .notAuthorized emp.name (splitComma eqp.required_skills) eqp.name) := by
  unfold check_out_equipment
  rw [hemp, heqp]
  dsimp only
  rw [hauth]
  rw [if_pos (by simp)]

/-! Lifecycle traces: the two mutating operations, iterated from an initial
store, used to state reachability invariants. -/

/-- A lifecycle request: one call of `check_out_equipment` or of
`return_equipment`. -/
inductive Op where
  | checkout (employee_id equipment_id : Int)
  | ret (equipment_id : Int)
deriving DecidableEq, Repr

/-- The store after serving one request (the returned message is dropped). -/
def stepStore (s : Store) : Op → Store
  | .checkout e q => (check_out_equipment s e q).1
  | .ret q => (return_equipment s q).1

/-- The store after serving a sequence of requests in order. -/
def runOps (s : Store) : List Op → Store
  | [] => s
  | op :: ops => runOps (stepStore s op) ops

/-- The successful lifecycle events that one request contributes for the
equipment item `q`: `[true]` for a successful checkout of `q`, `[false]` for
a successful return of `q`, `[]` otherwise (failures and other items). -/
def opEvent (s : Store) (op : Op) (q : Int) : List Bool :=
  match op with
  | .checkout e q2 =>
      if q2 = q ∧ (check_out_equipment s e q2).2.isSuccess = true then [true]
      else []
  | .ret q2 =>
      if q2 = q ∧ (return_equipment s q2).2.isSuccess = true then [false]
      else []

/-- The chronological list of successful lifecycle operations on item `q`
along a request trace (`true` = successful checkout, `false` = successful
return). -/
def lifeLog (s : Store) : List Op → Int → List Bool
  | [], _ => []
  | op :: ops, q => opEvent s op q ++ lifeLog (stepStore s op) ops q

/-- The last element of a list, if any (the most recent lifecycle event). -/
def lastOpt : List Bool → Option Bool
  | [] => none
  | [b] => some b
  | _ :: b :: bs => lastOpt (b :: bs)

/-! The report of `equipment_management.py` (ReportGeneration.generate_report,
src/equipment_management.py:93-108). -/

/-- One row contributed to the report's SQL join by a checkout log entry:
the (employee name, equipment name) pair, provided both foreign keys resolve
(ids are PRIMARY KEYs, so each resolves to at most one row) and the
equipment's current status is 'Checked Out'. -/
def pairOf (s : Store) (c : CheckoutEvent) : Option (String × String) :=
  match s.employees.find? (fun r => r.id == c.employee_id),
      s.equipment.find? (fun r => r.id == c.equipment_id) with
  | some emp, some eqp =>
      if eqp.status == "Checked Out" then some (emp.name, eqp.name) else none
  | _, _ => none

/-- The rows of the report query, in checkout-log order:
`SELECT employees.name, equipment.name FROM checkouts JOIN employees JOIN
equipment WHERE equipment.status = 'Checked Out'`. -/
def joinPairs (s : Store) : List (String × String) :=
  s.checkouts.filterMap (pairOf s)

/-- The `seen_entries` loop of `generate_report`: emit each row not seen
before, so the output keeps the first occurrence of each pair, in order
(this also models the query's `DISTINCT`). -/
def dedupAux {α : Type} [DecidableEq α] : List α → List α → List α
  | [], _ => []
  | a :: l, seen =>
      if a ∈ seen then dedupAux l seen else a :: dedupAux l (a :: seen)

/-- `ReportGeneration.generate_report`: the de-duplicated join rows, in query
order (an empty list is the "No equipment is currently checked out" case). -/
def generate_report (s : Store) : List (String × String) :=
  dedupAux (joinPairs s) []

/-! Concrete stores used to instantiate the theorems. -/

/-- A small registered population: two employees who both hold the skill
"Drill", and one drill requiring it, initially Available. -/
def demoInit : Store :=
  { employees := [⟨1, "Ann", "Drill"⟩, ⟨2, "Bob", "Drill"⟩],
    equipment := [⟨101, "Power Drill", "Drill", "Available"⟩],
    checkouts := [] }

/-- Ann checks the drill out and returns it, then Bob checks it out. -/
def demoOps : List Op :=
  [.checkout 1 101, .ret 101, .checkout 2 101]

/-- The store after serving `demoOps` from `demoInit`. -/
def demoStore : Store := runOps demoInit demoOps

/-- A store whose employee has the empty skill string and whose equipment has
the empty required-skills string. -/
def emptySkillStore : Store :=
  { employees := [⟨1, "Eve", ""⟩],
    equipment := [⟨101, "Mystery Box", "", "Available"⟩],
    checkouts := [] }

/-- A store whose equipment has the empty required-skills string, while the
employee holds an ordinary skill label. -/
def noSkillStore : Store :=
  { employees := [⟨1, "Ann", "Drill"⟩],
    equipment := [⟨101, "Mystery Box", "", "Available"⟩],
    checkouts := [] }

/-- The Bool skill test of the source (`any(skill in employee_skills for
skill in required_skills)`) holds exactly when the two lists share a label. -/
theorem any_contains_iff (l1 l2 : List String) :
    (l1.any fun sk => l2.contains sk) = true ↔ ∃ sk, sk ∈ l1 ∧ sk ∈ l2 := by
  simp [List.any_eq_true]

/-- Looking up the status of the row an UPDATE targeted yields the new
status, provided the row exists. -/
theorem find?_updateStatus_self (l : List EquipmentItem) (q : Int)
    (st : String) (eqp : EquipmentItem)
    (h : l.find? (fun r => r.id == q) = some eqp) :
    (updateStatus l q st).find? (fun r => r.id == q) =
      some { eqp with status := st } := by
  rw [find?_updateStatus, h]
  have hq : eqp.id = q := by
    have h' := List.find?_some h
    simpa using h'
  simp [hq]

/-- Looking up a different id than the one an UPDATE targeted is unaffected
by the UPDATE. -/
theorem find?_updateStatus_other (l : List EquipmentItem) (q q' : Int)
    (st : String) (hne : q' ≠ q) :
    (updateStatus l q st).find? (fun r => r.id == q') =
      l.find? (fun r => r.id == q') := by
  rw [find?_updateStatus]
  cases h : l.find? (fun r => r.id == q') with
  | none => rfl
  | some r =>
    have hr : r.id = q' := by
      have h' := List.find?_some h
      simpa using h'
    simp [hr, hne]

/-- A checkout reports success exactly when both lookups resolve, the skill
lists intersect, and the status is not "Checked Out". -/
theorem check_out_success_iff (s : Store) (e q : Int) :
    (check_out_equipment s e q).2.isSuccess = true ↔
      ∃ emp eqp, s.employees.find? (fun r => r.id == e) = some emp ∧
        s.equipment.find? (fun r => r.id == q) = some eqp ∧
        ((splitComma eqp.required_skills).any
          (fun sk => (splitComma emp.skill_set).contains sk)) = true ∧
        eqp.status ≠ "Checked Out" := by
  constructor
  · intro h
    unfold check_out_equipment at h
    cases hemp : s.employees.find? (fun r => r.id == e) with
    | none => rw [hemp] at h; simp [CheckOutResult.isSuccess] at h
    | some emp =>
      cases heqp : s.equipment.find? (fun r => r.id == q) with
      | none =>
        rw [hemp, heqp] at h
        simp [CheckOutResult.isSuccess] at h
      | some eqp =>
        rw [hemp, heqp] at h
        dsimp only at h
        cases hauth : ((splitComma eqp.required_skills).any
            (fun sk => (splitComma emp.skill_set).contains sk)) with
        | false =>
          rw [hauth] at h
          simp [CheckOutResult.isSuccess] at h
        | true =>
          rw [hauth] at h
          by_cases hst : (eqp.status == "Checked Out") = true
          · rw [if_neg (by simp), if_pos hst] at h
            simp [CheckOutResult.isSuccess] at h
          · exact ⟨emp, eqp, rfl, rfl, hauth, by simpa using hst⟩
  · rintro ⟨emp, eqp, hemp, heqp, hauth, hst⟩
    rw [check_out_success_eq s e q emp eqp hemp heqp hauth hst]
    rfl

/-! Theorems settling the claims. -/

/-- C6: in every state where equipment `e` is already "Checked Out", a
checkout request by any registered employee who is authorized for it fails
with the already-checked-out outcome and returns the store unchanged, so no
CheckoutEvent is inserted and no status is modified. -/
theorem checkout_already_checked_out_noop (s : Store) (x e : Int)
    (emp : Employee) (eqp : EquipmentItem)
    (hemp : s.employees.find? (fun r => r.id == x) = some emp)
    (heqp : s.equipment.find? (fun r => r.id == e) = some eqp)
    (hauth : ∃ sk, sk ∈ splitComma eqp.required_skills ∧
        sk ∈ splitComma emp.skill_set)
    (hst : eqp.status = "Checked Out") :
    check_out_equipment s x e = (s, .alreadyCheckedOut) :=
  check_out_alreadyOut_eq s x e emp eqp hemp heqp
    ((any_contains_iff _ _).mpr hauth) hst

/-- C6 witness: Bob requests the drill while Ann holds it. -/
theorem checkout_already_checked_out_noop_witness :
    check_out_equipment (runOps demoInit [.checkout 1 101]) 2 101 =
      (runOps demoInit [.checkout 1 101], .alreadyCheckedOut) :=
  checkout_already_checked_out_noop _ 2 101 ⟨2, "Bob", "Drill"⟩
    ⟨101, "Power Drill", "Drill", "Checked Out"⟩ (by decide) (by decide)
    ⟨"Drill", by decide⟩ rfl

/-- C7: returning equipment that exists and is "Available" fails with the
not-checked-out outcome and returns the store unchanged: a no-op on stored
state. -/
theorem return_available_noop (s : Store) (e : Int) (eqp : EquipmentItem)
    (heqp : s.equipment.find? (fun r => r.id == e) = some eqp)
    (hst : eqp.status = "Available") :
    return_equipment s e = (s, .notCheckedOut) :=
  return_notCheckedOut_eq s e eqp heqp (by rw [hst]; decide)

/-- C7 witness: returning the drill while it sits Available. -/
theorem return_available_noop_witness :
    return_equipment demoInit 101 = (demoInit, .notCheckedOut) :=
  return_available_noop demoInit 101 ⟨101, "Power Drill", "Drill", "Available"⟩
    (by decide) rfl

/-- C9: adding an employee under an id already present in the employees
table reports a duplicate key and leaves the whole store — in particular the
first record, in every field — unchanged; the same holds for adding
equipment under an existing equipment id. -/
theorem duplicate_add_reports_and_preserves (s : Store) (i : Int)
    (n sk : String) (j : Int) (m rq : String)
    (hi : ∃ r, r ∈ s.employees ∧ r.id = i)
    (hj : ∃ r, r ∈ s.equipment ∧ r.id = j) :
    add_employee s i n sk = (s, .duplicateKey) ∧
      add_equipment s j m rq = (s, .duplicateKey) := by
  obtain ⟨r1, hr1, hid1⟩ := hi
  obtain ⟨r2, hr2, hid2⟩ := hj
  constructor
  · unfold add_employee
    rw [if_pos]
    simp [List.any_eq_true]
    exact ⟨r1, hr1, hid1⟩
  · unfold add_equipment
    rw [if_pos]
    simp [List.any_eq_true]
    exact ⟨r2, hr2, hid2⟩

/-- C9 witness: re-registering employee 1 and equipment 101 of the demo
store. -/
theorem duplicate_add_reports_and_preserves_witness :
    add_employee demoInit 1 "Imposter" "Saw" = (demoInit, .duplicateKey) ∧
      add_equipment demoInit 101 "Other Drill" "Saw" =
        (demoInit, .duplicateKey) :=
  duplicate_add_reports_and_preserves demoInit 1 "Imposter" "Saw" 101
    "Other Drill" "Saw" ⟨⟨1, "Ann", "Drill"⟩, by decide, rfl⟩
    ⟨⟨101, "Power Drill", "Drill", "Available"⟩, by decide, rfl⟩

/-- C10: neither lifecycle operation ever touches the employees table: for
every store and every input, the employees list after `check_out_equipment`
and after `return_equipment` is exactly the one before, so every employee's
id, name and skill_set are preserved; the operations write only the
equipment and checkouts tables. -/
theorem lifecycle_preserves_employees (s : Store) (x e q : Int) :
    (check_out_equipment s x e).1.employees = s.employees ∧
      (return_equipment s q).1.employees = s.employees := by
  constructor
  · unfold check_out_equipment
    cases hemp : s.employees.find? (fun r => r.id == x) with
    | none => rfl
    | some emp =>
      cases heqp : s.equipment.find? (fun r => r.id == e) with
      | none => rfl
      | some eqp =>
        dsimp only
        split
        · rfl
        · split <;> rfl
  · unfold return_equipment
    cases heqp : s.equipment.find? (fun r => r.id == q) with
    | none => rfl
    | some eqp =>
      dsimp only
      split <;> rfl

/-- C1: for every registered equipment item with a non-empty required-skill
set and every registered employee, a checkout succeeds exactly when the
employee's skill labels intersect the required labels and the equipment's
status is "Available"; every other combination yields a failure outcome.
(The status hypothesis `hwf` says the stored status is one of the two
lifecycle states, which is the only situation the spec's state machine
admits.) -/
theorem checkout_succeeds_iff_skill_shared_and_available (s : Store)
    (x e : Int) (emp : Employee) (eqp : EquipmentItem)
    (hemp : s.employees.find? (fun r => r.id == x) = some emp)
    (heqp : s.equipment.find? (fun r => r.id == e) = some eqp)
    (hR : splitComma eqp.required_skills ≠ [])
    (hwf : eqp.status = "Available" ∨ eqp.status = "Checked Out") :
    (check_out_equipment s x e).2.isSuccess = true ↔
      ((∃ sk, sk ∈ splitComma eqp.required_skills ∧
          sk ∈ splitComma emp.skill_set) ∧ eqp.status = "Available") := by
  rw [check_out_success_iff]
  constructor
  · rintro ⟨emp', eqp', hemp', heqp', hauth', hst'⟩
    rw [hemp] at hemp'
    rw [heqp] at heqp'
    injection hemp' with h1
    injection heqp' with h2
    subst h1
    subst h2
    refine ⟨(any_contains_iff _ _).mp hauth', ?_⟩
    rcases hwf with h | h
    · exact h
    · exact absurd h hst'
  · rintro ⟨hsk, hav⟩
    exact ⟨emp, eqp, hemp, heqp, (any_contains_iff _ _).mpr hsk,
      by rw [hav]; decide⟩

/-- C1 witness: Ann (skill "Drill") and the Available drill requiring
"Drill" in the demo store. -/
theorem checkout_succeeds_iff_skill_shared_and_available_witness :
    (check_out_equipment demoInit 1 101).2.isSuccess = true ↔
      ((∃ sk, sk ∈ splitComma "Drill" ∧ sk ∈ splitComma "Drill") ∧
        "Available" = "Available") :=
  checkout_succeeds_iff_skill_shared_and_available demoInit 1 101
    ⟨1, "Ann", "Drill"⟩ ⟨101, "Power Drill", "Drill", "Available"⟩
    (by decide) (by decide) (by decide) (Or.inl rfl)

/-- C3: whenever a checkout reports success, the resulting store holds both
writes of the one transaction — the checkouts table is the old one with a
new event referencing the employee and the equipment appended, and the
equipment's stored status is "Checked Out" — and whenever it reports any
failure, the store is exactly the one from before the call (nothing is
committed). -/
theorem checkout_success_records_event_and_status (s : Store) (e q : Int) :
    ((check_out_equipment s e q).2.isSuccess = true →
      (check_out_equipment s e q).1.checkouts = s.checkouts ++ [⟨e, q⟩] ∧
        statusOf (check_out_equipment s e q).1 q = some "Checked Out") ∧
      ((check_out_equipment s e q).2.isSuccess = false →
        (check_out_equipment s e q).1 = s) := by
  constructor
  · intro h
    obtain ⟨emp, eqp, hemp, heqp, hauth, hst⟩ :=
      (check_out_success_iff s e q).mp h
    rw [check_out_success_eq s e q emp eqp hemp heqp hauth hst]
    refine ⟨rfl, ?_⟩
    unfold statusOf
    dsimp only
    rw [find?_updateStatus_self s.equipment q "Checked Out" eqp heqp]
    rfl
  · exact check_out_fail_frame s e q

/-- C3 witness: Ann checks out the drill from the demo store. -/
theorem checkout_success_records_event_and_status_witness :
    (check_out_equipment demoInit 1 101).2.isSuccess = true ∧
      ((check_out_equipment demoInit 1 101).1.checkouts =
          demoInit.checkouts ++ [⟨1, 101⟩] ∧
        statusOf (check_out_equipment demoInit 1 101).1 101 =
          some "Checked Out") :=
  ⟨by decide,
    (checkout_success_records_event_and_status demoInit 1 101).1 (by decide)⟩

/-- C5: from a state where the equipment is Available and the employee is
registered and authorized for it, a checkout followed by a return leaves the
equipment's stored status "Available" again, and the checkouts table is the
old one plus exactly the one event from the checkout — one more row than
before, none removed. -/
theorem checkout_return_round_trip (s : Store) (x e : Int) (emp : Employee)
    (eqp : EquipmentItem)
    (hemp : s.employees.find? (fun r => r.id == x) = some emp)
    (heqp : s.equipment.find? (fun r => r.id == e) = some eqp)
    (hauth : ∃ sk, sk ∈ splitComma eqp.required_skills ∧
        sk ∈ splitComma emp.skill_set)
    (hst : eqp.status = "Available") :
    statusOf (return_equipment (check_out_equipment s x e).1 e).1 e =
        some "Available" ∧
      (return_equipment (check_out_equipment s x e).1 e).1.checkouts =
        s.checkouts ++ [⟨x, e⟩] ∧
      (return_equipment (check_out_equipment s x e).1 e).1.checkouts.length =
        s.checkouts.length + 1 := by
  have hauthB := (any_contains_iff _ _).mpr hauth
  have hne : eqp.status ≠ "Checked Out" := by rw [hst]; decide
  rw [check_out_success_eq s x e emp eqp hemp heqp hauthB hne]
  have hfind : (updateStatus s.equipment e "Checked Out").find?
      (fun r => r.id == e) = some { eqp with status := "Checked Out" } :=
    find?_updateStatus_self s.equipment e "Checked Out" eqp heqp
  rw [return_success_eq _ e { eqp with status := "Checked Out" } hfind rfl]
  refine ⟨?_, rfl, by simp⟩
  unfold statusOf
  dsimp only
  rw [find?_updateStatus_self _ e "Available" _ hfind]
  rfl

/-- C5 witness: Ann's round trip on the drill from the demo store. -/
theorem checkout_return_round_trip_witness :
    statusOf (return_equipment (check_out_equipment demoInit 1 101).1 101).1
        101 = some "Available" ∧
      (return_equipment (check_out_equipment demoInit 1 101).1 101).1.checkouts =
        demoInit.checkouts ++ [⟨1, 101⟩] ∧
      (return_equipment
          (check_out_equipment demoInit 1 101).1 101).1.checkouts.length =
        demoInit.checkouts.length + 1 :=
  checkout_return_round_trip demoInit 1 101 ⟨1, "Ann", "Drill"⟩
    ⟨101, "Power Drill", "Drill", "Available"⟩ (by decide) (by decide)
    ⟨"Drill", by decide⟩ rfl

/-- C2 counterexample: in `emptySkillStore` the equipment's required-skills
string is empty — the empty required-skill set — yet the registered employee
Eve (whose skill string is also empty) checks it out successfully, because
Python's `"".split(", ")` is `[""]`, so both sides of the intersection
contain the empty label.  This contradicts the claim that no employee
whatsoever can ever check out such equipment. -/
theorem empty_required_skills_checkout_succeeds :
    emptySkillStore.equipment.find? (fun r => r.id == 101) =
        some ⟨101, "Mystery Box", "", "Available"⟩ ∧
      emptySkillStore.employees.find? (fun r => r.id == 1) =
        some ⟨1, "Eve", ""⟩ ∧
      (check_out_equipment emptySkillStore 1 101).2 =
        .success "Eve" "Mystery Box" ∧
      statusOf (check_out_equipment emptySkillStore 1 101).1 101 =
        some "Checked Out" :=
  ⟨rfl, rfl, rfl, rfl⟩

/-- C2 amended: for equipment whose required-skills string is empty, the
checkout of any registered employee whose comma-split skill list does not
contain the empty label fails as unauthorized (only an employee whose skill
list contains the empty label — e.g. an empty skill string — can pass the
check, since `split(", ")` turns the empty string into `[""]`). -/
theorem empty_required_skills_unauthorized_without_empty_label (s : Store)
    (x e : Int) (emp : Employee) (eqp : EquipmentItem)
    (hemp : s.employees.find? (fun r => r.id == x) = some emp)
    (heqp : s.equipment.find? (fun r => r.id == e) = some eqp)
    (hreq : eqp.required_skills = "")
    (hno : "" ∉ splitComma emp.skill_set) :
    check_out_equipment s x e =
      (s, .notAuthorized emp.name [""] eqp.name) := by
  have hsplit : splitComma eqp.required_skills = [""] := by rw [hreq]; rfl
  have hauth : ((splitComma eqp.required_skills).any
      (fun sk => (splitComma emp.skill_set).contains sk)) = false := by
    rw [hsplit]
    simp only [List.any_cons, List.any_nil, Bool.or_false]
    simpa using hno
  have h := check_out_notAuthorized_eq s x e emp eqp hemp heqp hauth
  rw [h, hsplit]

/-- C2 amended witness: Ann (skill "Drill") cannot check out the equipment
with the empty required-skills string. -/
theorem empty_required_skills_unauthorized_without_empty_label_witness :
    ("" ∉ splitComma "Drill") ∧
      check_out_equipment noSkillStore 1 101 =
        (noSkillStore, .notAuthorized "Ann" [""] "Mystery Box") :=
  ⟨by decide,
    empty_required_skills_unauthorized_without_empty_label noSkillStore 1 101
      ⟨1, "Ann", "Drill"⟩ ⟨101, "Mystery Box", "", "Available"⟩ (by decide)
      (by decide) rfl (by decide)⟩

/-- Membership in the seen-set de-duplication output: exactly the input
elements not already seen. -/
theorem mem_dedupAux {α : Type} [DecidableEq α] (l seen : List α) (x : α) :
    x ∈ dedupAux l seen ↔ x ∈ l ∧ x ∉ seen := by
  induction l generalizing seen with
  | nil => simp [dedupAux]
  | cons a l ih =>
    by_cases h : a ∈ seen
    · rw [dedupAux, if_pos h, ih]
      constructor
      · rintro ⟨h1, h2⟩
        exact ⟨List.mem_cons_of_mem _ h1, h2⟩
      · rintro ⟨h1, h2⟩
        rcases List.mem_cons.mp h1 with rfl | h1
        · exact absurd h h2
        · exact ⟨h1, h2⟩
    · rw [dedupAux, if_neg h]
      constructor
      · intro hx
        rcases List.mem_cons.mp hx with rfl | hx
        · exact ⟨List.mem_cons_self _ _, h⟩
        · obtain ⟨h1, h2⟩ := (ih (a :: seen)).mp hx
          exact ⟨List.mem_cons_of_mem _ h1,
            fun hs => h2 (List.mem_cons_of_mem _ hs)⟩
      · rintro ⟨h1, h2⟩
        rcases List.mem_cons.mp h1 with rfl | h1
        · exact List.mem_cons_self _ _
        · by_cases hxa : x = a
          · subst hxa
            exact List.mem_cons_self _ _
          · refine List.mem_cons_of_mem _ ((ih (a :: seen)).mpr ⟨h1, ?_⟩)
            intro hs
            rcases List.mem_cons.mp hs with h' | h'
            · exact hxa h'
            · exact h2 h'

/-- The seen-set de-duplication never emits an element twice. -/
theorem nodup_dedupAux {α : Type} [DecidableEq α] (l seen : List α) :
    (dedupAux l seen).Nodup := by
  induction l generalizing seen with
  | nil => simp [dedupAux]
  | cons a l ih =>
    by_cases h : a ∈ seen
    · rw [dedupAux, if_pos h]
      exact ih seen
    · rw [dedupAux, if_neg h]
      rw [List.nodup_cons]
      refine ⟨?_, ih (a :: seen)⟩
      intro hmem
      exact ((mem_dedupAux l (a :: seen) a).mp hmem).2 (List.mem_cons_self _ _)

/-- A checkout log entry contributes a join row exactly when its two foreign
keys resolve and the equipment is currently "Checked Out". -/
theorem pairOf_eq_some_iff (s : Store) (c : CheckoutEvent)
    (p : String × String) :
    pairOf s c = some p ↔ ∃ emp eqp,
      s.employees.find? (fun r => r.id == c.employee_id) = some emp ∧
      s.equipment.find? (fun r => r.id == c.equipment_id) = some eqp ∧
      eqp.status = "Checked Out" ∧ p = (emp.name, eqp.name) := by
  unfold pairOf
  cases hemp : s.employees.find? (fun r => r.id == c.employee_id) with
  | none => simp
  | some emp =>
    cases heqp : s.equipment.find? (fun r => r.id == c.equipment_id) with
    | none => simp
    | some eqp =>
      dsimp only
      by_cases hst : eqp.status = "Checked Out"
      · rw [if_pos (by simp [hst])]
        simp [hst, eq_comm]
      · rw [if_neg (by simp [hst])]
        simp [hst]

/-- C8 counterexample: run Ann checks out the drill, Ann returns it, Bob
checks it out.  The resulting store is reachable, has a single equipment
item whose one un-returned checkout is Bob's (Ann's was returned, as the
third conjunct re-runs), yet the report lists two de-duplicated pairs for
that item — the past holder Ann as well as the current holder Bob — because
the SQL join matches every historic checkout row of currently checked-out
equipment.  So the report is not a listing of exactly the checked-out items
paired with their current holders. -/
theorem report_lists_past_holder :
    generate_report demoStore =
        [("Ann", "Power Drill"), ("Bob", "Power Drill")] ∧
      demoStore.equipment.length = 1 ∧
      (return_equipment (runOps demoInit [Op.checkout 1 101]) 101).2 =
        .success ∧
      demoStore.checkouts = [⟨1, 101⟩, ⟨2, 101⟩] :=
  ⟨rfl, rfl, rfl, rfl⟩

/-- C8 amended: the generated report is the first-occurrence-de-duplicated
sequence, in checkout-log (query) order, of the (employee name, equipment
name) pairs of every logged checkout whose equipment is currently
"Checked Out" — i.e. every recorded past or present holder of each
checked-out item, not only the current holder; no pair appears twice, and a
state with no checked-out equipment yields the empty report rather than an
error. -/
theorem report_characterization (s : Store) (p : String × String) :
    (p ∈ generate_report s ↔ ∃ c, c ∈ s.checkouts ∧ ∃ emp eqp,
        s.employees.find? (fun r => r.id == c.employee_id) = some emp ∧
        s.equipment.find? (fun r => r.id == c.equipment_id) = some eqp ∧
        eqp.status = "Checked Out" ∧ p = (emp.name, eqp.name)) ∧
      (generate_report s).Nodup ∧
      ((∀ eqp, eqp ∈ s.equipment → eqp.status ≠ "Checked Out") →
        generate_report s = []) := by
  refine ⟨?_, nodup_dedupAux _ _, ?_⟩
  · rw [generate_report, mem_dedupAux]
    simp only [List.not_mem_nil, not_false_iff, and_true]
    rw [joinPairs, List.mem_filterMap]
    constructor
    · rintro ⟨c, hc, hp⟩
      exact ⟨c, hc, (pairOf_eq_some_iff s c p).mp hp⟩
    · rintro ⟨c, hc, h⟩
      exact ⟨c, hc, (pairOf_eq_some_iff s c p).mpr h⟩
  · intro hnone
    have hj : joinPairs s = [] := by
      rw [joinPairs, List.filterMap_eq_nil_iff]
      intro c hc
      unfold pairOf
      cases hemp : s.employees.find? (fun r => r.id == c.employee_id) with
      | none => rfl
      | some emp =>
        cases heqp : s.equipment.find? (fun r => r.id == c.equipment_id) with
        | none => rfl
        | some eqp =>
          dsimp only
          have hm : eqp ∈ s.equipment := List.mem_of_find?_eq_some heqp
          rw [if_neg (by simpa using hnone eqp hm)]
    rw [generate_report, hj]
    rfl

/-- C8 amended witness: the demo population before any checkout has nothing
checked out, and its report is empty. -/
theorem report_characterization_witness :
    (∀ eqp, eqp ∈ demoInit.equipment → eqp.status ≠ "Checked Out") ∧
      generate_report demoInit = [] :=
  ⟨by decide,
    (report_characterization demoInit ("Ann", "Power Drill")).2.2 (by decide)⟩

theorem lastOpt_isSome (x : Bool) (xs : List Bool) :
    (lastOpt (x :: xs)).isSome = true := by
  induction xs generalizing x with
  | nil => rfl
  | cons y ys ih => exact ih y

theorem lastOpt_cons_of_ne_nil (b : Bool) (l : List Bool) (h : l ≠ []) :
    lastOpt (b :: l) = lastOpt l := by
  cases l with
  | nil => exact absurd rfl h
  | cons x xs => rfl

theorem lastOpt_eq_none_iff (l : List Bool) : lastOpt l = none ↔ l = [] := by
  cases l with
  | nil => simp [lastOpt]
  | cons x xs =>
    constructor
    · intro h
      have hs := lastOpt_isSome x xs
      rw [h] at hs
      exact absurd hs (by decide)
    · intro h
      cases h

theorem lastOpt_append (ev L : List Bool) :
    lastOpt (ev ++ L) =
      match lastOpt L with
      | some c => some c
      | none => lastOpt ev := by
  induction ev with
  | nil =>
    simp only [List.nil_append]
    cases hL : lastOpt L with
    | some c => rfl
    | none => rfl
  | cons e ev' ih =>
    cases hL : lastOpt L with
    | some c =>
      have hne : ev' ++ L ≠ [] := by
        intro hnil
        have hL2 : L = [] := (List.append_eq_nil.mp hnil).2
        rw [hL2] at hL
        cases hL
      rw [List.cons_append, lastOpt_cons_of_ne_nil _ _ hne, ih, hL]
    | none =>
      have hLnil : L = [] := (lastOpt_eq_none_iff L).mp hL
      subst hLnil
      rw [List.append_nil]

theorem step_glue (s : Store) (op : Op) (q : Int) :
    statusOf (stepStore s op) q = some "Checked Out" ↔
      (match lastOpt (opEvent s op q) with
       | some b => b = true
       | none => statusOf s q = some "Checked Out") := by
  cases op with
  | checkout e q2 =>
    show statusOf (check_out_equipment s e q2).1 q = some "Checked Out" ↔ _
    by_cases hs : (check_out_equipment s e q2).2.isSuccess = true
    · obtain ⟨emp, eqp, hemp, heqp, hauth, hst⟩ :=
        (check_out_success_iff s e q2).mp hs
      have heq := check_out_success_eq s e q2 emp eqp hemp heqp hauth hst
      by_cases hq : q2 = q
      · subst hq
        have hev : opEvent s (Op.checkout e q2) q2 = [true] := by
          unfold opEvent
          dsimp only
          rw [if_pos ⟨rfl, hs⟩]
        rw [hev, heq]
        unfold statusOf
        dsimp only
        rw [find?_updateStatus_self s.equipment q2 "Checked Out" eqp heqp]
        exact iff_of_true rfl rfl
      · have hev : opEvent s (Op.checkout e q2) q = [] := by
          unfold opEvent
          dsimp only
          rw [if_neg]
          intro hand
          exact hq hand.1
        rw [hev, heq]
        unfold statusOf
        dsimp only
        rw [find?_updateStatus_other s.equipment q2 q "Checked Out"
          (fun h => hq h.symm)]
        exact Iff.rfl
    · have hs' : (check_out_equipment s e q2).2.isSuccess = false := by
        simpa using hs
      have hframe := check_out_fail_frame s e q2 hs'
      have hev : opEvent s (Op.checkout e q2) q = [] := by
        unfold opEvent
        dsimp only
        rw [if_neg]
        intro hand
        exact hs hand.2
      rw [hev, hframe]
      exact Iff.rfl
  | ret q2 =>
    show statusOf (return_equipment s q2).1 q = some "Checked Out" ↔ _
    by_cases hs : (return_equipment s q2).2.isSuccess = true
    · have hsucc : ∃ eqp, s.equipment.find? (fun r => r.id == q2) = some eqp ∧
          eqp.status = "Checked Out" := by
        unfold return_equipment at hs
        cases heqp : s.equipment.find? (fun r => r.id == q2) with
        | none =>
          rw [heqp] at hs
          simp [ReturnResult.isSuccess] at hs
        | some eqp =>
          rw [heqp] at hs
          dsimp only at hs
          by_cases hst : (eqp.status == "Checked Out") = true
          · exact ⟨eqp, rfl, by simpa using hst⟩
          · rw [if_neg hst] at hs
            simp [ReturnResult.isSuccess] at hs
      obtain ⟨eqp, heqp, hst⟩ := hsucc
      have heq := return_success_eq s q2 eqp heqp hst
      by_cases hq : q2 = q
      · subst hq
        have hev : opEvent s (Op.ret q2) q2 = [false] := by
          unfold opEvent
          dsimp only
          rw [if_pos ⟨rfl, hs⟩]
        rw [hev, heq]
        unfold statusOf
        dsimp only
        rw [find?_updateStatus_self s.equipment q2 "Available" eqp heqp]
        show some "Available" = some "Checked Out" ↔ (false = true)
        exact iff_of_false (by decide) (by decide)
      · have hev : opEvent s (Op.ret q2) q = [] := by
          unfold opEvent
          dsimp only
          rw [if_neg]
          intro hand
          exact hq hand.1
        rw [hev, heq]
        unfold statusOf
        dsimp only
        rw [find?_updateStatus_other s.equipment q2 q "Available"
          (fun h => hq h.symm)]
        exact Iff.rfl
    · have hs' : (return_equipment s q2).2.isSuccess = false := by
        simpa using hs
      have hframe := return_fail_frame s q2 hs'
      have hev : opEvent s (Op.ret q2) q = [] := by
        unfold opEvent
        dsimp only
        rw [if_neg]
        intro hand
        exact hs hand.2
      rw [hev, hframe]
      exact Iff.rfl

theorem statusOf_runOps (ops : List Op) : ∀ (s : Store) (q : Int),
    statusOf (runOps s ops) q = some "Checked Out" ↔
      (match lastOpt (lifeLog s ops q) with
       | some b => b = true
       | none => statusOf s q = some "Checked Out") := by
  induction ops with
  | nil =>
    intro s q
    exact Iff.rfl
  | cons op ops ih =>
    intro s q
    rw [show runOps s (op :: ops) = runOps (stepStore s op) ops from rfl,
      show lifeLog s (op :: ops) q =
        opEvent s op q ++ lifeLog (stepStore s op) ops q from rfl,
      ih (stepStore s op) q, lastOpt_append]
    cases hL : lastOpt (lifeLog (stepStore s op) ops q) with
    | some b => exact Iff.rfl
    | none => exact step_glue s op q

/-- C4: starting from any store in which every equipment row is "Available"
and serving any sequence of checkout and return requests, an item's stored
status is "Checked Out" exactly when the most recent successful lifecycle
operation on that item (in the log of successful checkouts and returns the
trace induces) is a checkout that no successful return has followed. -/
theorem checkedOut_iff_last_op_checkout (s0 : Store) (ops : List Op) (q : Int)
    (hinit : ∀ eqp, eqp ∈ s0.equipment → eqp.status = "Available") :
    statusOf (runOps s0 ops) q = some "Checked Out" ↔
      lastOpt (lifeLog s0 ops q) = some true := by
  rw [statusOf_runOps ops s0 q]
  cases hL : lastOpt (lifeLog s0 ops q) with
  | some b =>
    constructor
    · intro h
      rw [show b = true from h]
    · intro h
      injection h
  | none =>
    constructor
    · intro h
      exfalso
      unfold statusOf at h
      cases hf : s0.equipment.find? (fun r => r.id == q) with
      | none =>
        rw [hf] at h
        exact Option.noConfusion h
      | some eqp =>
        rw [hf] at h
        have hm := List.mem_of_find?_eq_some hf
        have hav := hinit eqp hm
        injection h with h
        dsimp only at h
        rw [hav] at h
        exact absurd h (by decide)
    · intro h
      exact Option.noConfusion h

/-- C4 witness: item 101 along the demo trace (checked out by Ann, returned,
checked out by Bob) ends "Checked Out", and the last successful lifecycle
event on it is indeed a checkout. -/
theorem checkedOut_iff_last_op_checkout_witness :
    (∀ eqp, eqp ∈ demoInit.equipment → eqp.status = "Available") ∧
      (statusOf (runOps demoInit demoOps) 101 = some "Checked Out" ↔
        lastOpt (lifeLog demoInit demoOps 101) = some true) :=
  ⟨by decide, checkedOut_iff_last_op_checkout demoInit demoOps 101 (by decide)⟩

end EMS
